import Mathlib

/-!
Verification of the error-type code generator (crate `error-proc-macros`).

The development shallowly embeds the module-based engine of the crate —
`src/common.rs`, `src/enum_error.rs` and `src/struct_error.rs` — which the
specification identifies as the core (the inline functions in `src/lib.rs`
are an earlier iteration of the same engine).  The host-language AST types
from `syn` are embedded as plain inductive types; `proc_macro_error`'s
`Diagnostic::abort` (a non-local abort of the whole derive expansion) is
embedded by making every aborting function return `Except Diagnostic _`,
so `.error d` means "the expansion aborts with diagnostic `d` and emits
nothing".  Emitted token streams are embedded as a small code AST mirroring
the `quote!` templates, and a separate evaluator gives the emitted
`Display` implementations a semantics so that end-to-end stringification
properties can be stated.
-/

/-! ## Input model: the `syn` declaration AST, as far as the crate inspects it -/

/-- A literal (`syn::Lit`), as far as the crate distinguishes: string literals
versus everything else (`Lit::Str(_)` pattern matches in `common.rs`). -/
inductive Lit where
  | str (s : String)
  | int (n : Int)
  | other
deriving DecidableEq

/-- An attribute value expression (`syn::Expr`): the crate only distinguishes
`Expr::Lit` from any other expression. -/
inductive AExpr where
  | lit (l : Lit)
  | nonLit
deriving DecidableEq

/-- Source `syn::Meta`: a name-value pair `#[key = value]`, a bare path `#[key]`, or a
list form `#[key(...)]`.  The crate only ever destructures `Meta::NameValue`. -/
inductive AttrMeta where
  | nameValue (path : String) (value : AExpr)
  | pathOnly (path : String)
  | metaList (path : String)
deriving DecidableEq

/-- Source `Meta::path()`. -/
def AttrMeta.path : AttrMeta → String
  | .nameValue p _ => p
  | .pathOnly p => p
  | .metaList p => p

/-- Source `syn::Attribute` (only its `meta` is ever read). -/
structure Attribute where
  meta : AttrMeta
deriving DecidableEq

/-- A named struct/variant field: `syn::Field` with `ident = Some _`.
Types are opaque token strings, compared only for identity. -/
structure FieldNamed where
  attrs : List Attribute
  ident : String
  ty : String
deriving DecidableEq

/-- An unnamed (positional) field: `syn::Field` with `ident = None`. -/
structure FieldUnnamed where
  attrs : List Attribute
  ty : String
deriving DecidableEq

/-- Source `syn::Fields`. -/
inductive Fields where
  | named (fields : List FieldNamed)
  | unnamed (fields : List FieldUnnamed)
  | unit
deriving DecidableEq

/-- Source `syn::Variant`: name, attributes, fields and the optional discriminant
expression (kept as opaque token text). -/
structure Variant where
  ident : String
  attrs : List Attribute
  fields : Fields
  discriminant : Option String
deriving DecidableEq

/-- Source `syn::Data` (the `vis` field of `DeriveInput` is never read). -/
inductive Data where
  | enum (variants : List Variant)
  | struct (fields : Fields)
  | union
deriving DecidableEq

/-- Source `syn::DeriveInput`; `generics` is an opaque pass-through token string,
never inspected by the crate. -/
structure DeriveInput where
  ident : String
  attrs : List Attribute
  generics : String
  data : Data
deriving DecidableEq

/-- Source `proc_macro_error::Diagnostic` at `Level::Error` (the only level the
crate uses): the message and the optional `help` text. -/
structure Diagnostic where
  message : String
  help : Option String
deriving DecidableEq

/-! ## `src/common.rs`: the annotation resolver -/

/-- Errors of `attrs_get_value` (`common.rs`). -/
inductive AttrsGetValueError where
  | NotNameValue (s : String)
  | NotFound (s : String)
deriving DecidableEq

/-- The `Display` impl of `AttrsGetValueError` (`common.rs`). -/
def AttrsGetValueError.toMessage : AttrsGetValueError → String
  | .NotNameValue attr => "attribute `" ++ attr ++ "` only accepts name value arguments"
  | .NotFound attr => "attribute `" ++ attr ++ "` was not found"

/-- Source `common.rs::attrs_get_value`: find the first attribute whose path is
`search` and return its name-value right-hand side. -/
def attrs_get_value (attrs : List Attribute) (search : String) :
    Except AttrsGetValueError AExpr :=
  match attrs.find? (fun attr => attr.meta.path == search) with
  | none => .error (.NotFound search)
  | some attr =>
    match attr.meta with
    | .nameValue _ value => .ok value
    | _ => .error (.NotNameValue search)

/-- Errors of `attrs_get_lit_str` (`common.rs`). -/
inductive AttrsGetLitStrError where
  | GetError (e : AttrsGetValueError)
  | NotStringLiteral (s : String)
deriving DecidableEq

/-- The `Display` impl of `AttrsGetLitStrError` (`common.rs`). -/
def AttrsGetLitStrError.toMessage : AttrsGetLitStrError → String
  | .GetError e => e.toMessage
  | .NotStringLiteral attr => "attribute `" ++ attr ++ "` only accepts string literals"

/-- Source `common.rs::attrs_get_lit_str`: extract a string literal from an
attribute; any non-string value is `NotStringLiteral`. -/
def attrs_get_lit_str (attrs : List Attribute) (search : String) :
    Except AttrsGetLitStrError String :=
  match attrs_get_value attrs search with
  | .error e => .error (.GetError e)
  | .ok expr =>
    match expr with
    | .lit (.str s) => .ok s
    | .lit _ => .error (.NotStringLiteral search)
    | .nonLit => .error (.NotStringLiteral search)

/-! ## Emitted code AST

The engine emits Rust tokens via `quote!`.  The fragments are embedded by a
small AST that mirrors the `quote!` templates structurally. -/

/-- The external token lexer/parser used by `LitStr::parse` (a `syn`
collaborator, out of scope for the crate): turns a literal's text into
expression tokens or fails.  The engine is parameterized over it. -/
abbrev TokenLex := String → Except String String

/-- Expression tokens occurring in emitted code. -/
inductive CTokens where
  | tok (s : String)
  | strLit (s : String)
  | compileError (msg : String)
  | applyConv (conv : CTokens) (arg : CTokens)
deriving DecidableEq

/-- Source `common.rs::display_field`: wrap `value` in the parsed `display`
conversion, `(#conversion)(#value)`; on a parse failure the error becomes a
`compile_error!` invocation embedded in the emitted tokens
(`unwrap_or_else(|err| err.into_compile_error())`) — no abort. -/
def display_field (lex : TokenLex) (display : Option String) (value : CTokens) : CTokens :=
  match display with
  | some d =>
    let conversion : CTokens :=
      match lex d with
      | .ok e => .tok e
      | .error msg => .compileError msg
    .applyConv conversion value
  | none => value

/-- A match-arm pattern in the emitted `Display` impl:
`Self::Ident`, `Self::Ident(x, ...)` or `Self::Ident { f, ... }`. -/
inductive Pat where
  | unitPat (ident : String)
  | tuplePat (ident : String) (binders : List String)
  | structPat (ident : String) (fields : List String)
deriving DecidableEq

/-- The variant name a pattern matches on. -/
def Pat.identOf : Pat → String
  | .unitPat i => i
  | .tuplePat i _ => i
  | .structPat i _ => i

/-- One emitted match arm: pattern, `let` bindings, then
`format!(fmt, args...)`. -/
structure Arm where
  pat : Pat
  lets : List (String × CTokens)
  fmt : String
  args : List CTokens
deriving DecidableEq

/-- An argument of the emitted outer `write!`: either the whole
`match self { ... }` expression or plain tokens. -/
inductive BodyArg where
  | matchSelf (arms : List Arm)
  | tok (t : CTokens)
deriving DecidableEq

/-- The emitted `impl std::fmt::Display` for an enum:
`write!(f, fmt, args...)` under the generics of the type. -/
structure DisplayImpl where
  generics : String
  ident : String
  fmt : String
  args : List BodyArg
deriving DecidableEq

/-- One emitted conversion rule
`impl From<ty> for onto { fn from(error: ty) -> Self { Self::variant(error) } }`. -/
structure FromImpl where
  generics : String
  ty : String
  onto : String
  variant : String
deriving DecidableEq

/-! ## `src/enum_error.rs` -/

/-- Source `enum_error.rs::get_required_format`: the `format` attribute, aborting
with a diagnostic naming the variant when it is absent or malformed. -/
def get_required_format (attrs : List Attribute) (ident : String) :
    Except Diagnostic String :=
  match attrs_get_lit_str attrs "format" with
  | .ok s => .ok s
  | .error err =>
    .error ⟨"failed to get required attribute `format` for variant `" ++ ident
        ++ "`: " ++ err.toMessage, none⟩

/-- Source `enum_error.rs::EnumVariant`: the classified variant shapes.
Constructor argument order follows the Rust field declaration order. -/
inductive EnumVariant where
  | anonymousStruct (ident : String) (fields : List (Option String × String))
      (format : String)
  | discriminant (discr : String) (format : Option String)
      (display : Option String) (ident : String)
  | singleType (ident : String) (display : Option String)
      (format : Option String) (ty : String)
  | tuple (ident : String) (format : String) (displays : List (Option String))
  | unit (ident : String) (format : String)
deriving DecidableEq

/-- The declared name of a classified variant. -/
def EnumVariant.identOf : EnumVariant → String
  | .anonymousStruct i _ _ => i
  | .discriminant _ _ _ i => i
  | .singleType i _ _ _ => i
  | .tuple i _ _ => i
  | .unit i _ => i

/-- The field-shape branch of `impl From<&Variant> for EnumVariant`
(`enum_error.rs`): the `match &variant.fields { ... }` at the end of the
conversion, reached when the discriminant branch did not return. -/
def EnumVariant.classifyFields (v : Variant) : Except Diagnostic EnumVariant :=
  match v.fields with
  | .named fields => do
    let format ← get_required_format v.attrs v.ident
    .ok (.anonymousStruct v.ident
      (fields.map (fun field => ((attrs_get_lit_str field.attrs "display").toOption, field.ident)))
      format)
  | .unnamed [field] =>
    .ok (.singleType v.ident
      (attrs_get_lit_str v.attrs "display").toOption
      (attrs_get_lit_str v.attrs "format").toOption
      field.ty)
  | .unnamed fields => do
    let format ← get_required_format v.attrs v.ident
    .ok (.tuple v.ident format
      (fields.map (fun field => (attrs_get_lit_str field.attrs "display").toOption)))
  | .unit => do
    let format ← get_required_format v.attrs v.ident
    .ok (.unit v.ident format)

/-- Source `impl From<&Variant> for EnumVariant` (`enum_error.rs`): a variant with a
discriminant **and** `Fields::Unit` is classified `Discriminant`; everything
else falls through to the field-shape branch. -/
def EnumVariant.fromVariant (v : Variant) : Except Diagnostic EnumVariant :=
  match v.discriminant, v.fields with
  | some discr, .unit =>
    .ok (.discriminant discr
      (attrs_get_lit_str v.attrs "format").toOption
      (attrs_get_lit_str v.attrs "display").toOption
      v.ident)
  | _, _ => EnumVariant.classifyFields v

/-- Source `EnumVariant::to_display_match_arm` (`enum_error.rs`): emit one match arm
of the `Display` impl.  For `Tuple` variants the position-`i` placeholder is
`arg_i` (the `format!("arg_{}", i).parse()` there never fails to lex), and a
`display` attribute on a tuple field is interpolated as a string literal
(`let #arg = #display;`) rather than applied through `display_field`. -/
def EnumVariant.to_display_match_arm (lex : TokenLex) : EnumVariant → Arm
  | .anonymousStruct ident fields format =>
    { pat := .structPat ident (fields.map (fun f => f.2))
      lets := (fields.filter (fun f => f.1.isSome)).map
        (fun f => (f.2, display_field lex f.1 (.tok f.2)))
      fmt := format
      args := [] }
  | .discriminant discr format display ident =>
    let disp := display_field lex display (.tok discr)
    match format with
    | some format => { pat := .unitPat ident, lets := [], fmt := format, args := [disp] }
    | none => { pat := .unitPat ident, lets := [], fmt := "{}", args := [disp] }
  | .singleType ident display format _ =>
    let disp := display_field lex display (.tok "error")
    match format with
    | some format =>
      { pat := .tuplePat ident ["error"], lets := [], fmt := format, args := [disp] }
    | none =>
      { pat := .tuplePat ident ["error"], lets := [], fmt := "{}", args := [disp] }
  | .tuple ident format displays =>
    let args := (List.range displays.length).map (fun i => "arg_" ++ toString i)
    { pat := .tuplePat ident args
      lets := (args.zip displays).filterMap
        (fun p => p.2.map (fun display => (p.1, CTokens.strLit display)))
      fmt := format
      args := [] }
  | .unit ident format =>
    { pat := .unitPat ident, lets := [], fmt := format, args := [] }

/-- Source `EnumVariant::to_from_impl` (`enum_error.rs`): a conversion rule is
produced only for `SingleType` with no `format`. -/
def EnumVariant.to_from_impl (v : EnumVariant) (onto generics : String) :
    Option FromImpl :=
  match v with
  | .singleType ident _ format ty =>
    match format with
    | some _ => none
    | none => some ⟨generics, ty, onto, ident⟩
  | _ => none

/-- Source `enum_error.rs::EnumError`: the classified enum. -/
structure EnumError where
  ident : String
  format : Option String
  generics : String
  variants : List EnumVariant
deriving DecidableEq

/-- Source `EnumError::to_display_impl` (`enum_error.rs`): with a type-level
`format` the impl is `write!(f, #format, match self { ... })`; without one it
is `write!(f, "{}", match self { ... })`. -/
def EnumError.to_display_impl (lex : TokenLex) (e : EnumError) : DisplayImpl :=
  let match_arms := e.variants.map (EnumVariant.to_display_match_arm lex)
  match e.format with
  | some format =>
    { generics := e.generics, ident := e.ident, fmt := format
      args := [.matchSelf match_arms] }
  | none =>
    { generics := e.generics, ident := e.ident, fmt := "{}"
      args := [.matchSelf match_arms] }

/-- Source `EnumError::to_from_impls` (`enum_error.rs`): one conversion rule per
eligible variant, in declaration order, with no cross-variant filtering. -/
def EnumError.to_from_impls (e : EnumError) : List FromImpl :=
  e.variants.filterMap (fun v => v.to_from_impl e.ident e.generics)

/-- Source `impl From<&DeriveInput> for EnumError` (`enum_error.rs`): abort on
non-enum input, classify the variants in order (the first classification
abort wins), then resolve the optional type-level `format`. -/
def EnumError.fromDeriveInput (input : DeriveInput) : Except Diagnostic EnumError :=
  match input.data with
  | .enum vs => do
    let variants ← vs.mapM EnumVariant.fromVariant
    .ok { ident := input.ident
          format := (attrs_get_lit_str input.attrs "format").toOption
          generics := input.generics
          variants := variants }
  | _ => .error ⟨"`EnumError` only works on enum", some "remove"⟩

/-- The full emitted fragment for an enum: the `Display` impl followed by
the `From` impls (`impl ToTokens for EnumError`). -/
structure EnumFragment where
  display : DisplayImpl
  froms : List FromImpl
deriving DecidableEq

/-- Source `impl ToTokens for EnumError` (`enum_error.rs`). -/
def EnumError.toTokens (lex : TokenLex) (e : EnumError) : EnumFragment :=
  ⟨e.to_display_impl lex, e.to_from_impls⟩

/-- The `EnumError` derive entry point: classify, then emit; any diagnostic
aborts the whole expansion with no fragment. -/
def enumErrorDerive (lex : TokenLex) (input : DeriveInput) :
    Except Diagnostic EnumFragment :=
  (EnumError.fromDeriveInput input).map (EnumError.toTokens lex)

/-! ## `src/struct_error.rs` -/

/-- Source `struct_error.rs::StructErrorVariant`. -/
inductive StructErrorVariant where
  | named (fields : List (Option String × String))
  | singleUnnamed
  | unit
  | unnamed (displays : List (Option String))
deriving DecidableEq

/-- Source `impl From<&Fields> for StructErrorVariant` (`struct_error.rs`). -/
def StructErrorVariant.fromFields : Fields → StructErrorVariant
  | .named fields => .named (fields.map
      (fun field => ((attrs_get_lit_str field.attrs "display").toOption, field.ident)))
  | .unnamed [_] => .singleUnnamed
  | .unnamed fields => .unnamed (fields.map
      (fun field => (attrs_get_lit_str field.attrs "display").toOption))
  | .unit => .unit

/-- Source `struct_error.rs::StructError`: the classified struct; its `format` is
mandatory. -/
structure StructError where
  ident : String
  format : String
  generics : String
  variant : StructErrorVariant
deriving DecidableEq

/-- Source `impl From<&DeriveInput> for StructError` (`struct_error.rs`): abort on
non-struct input; abort when the required type-level `format` is absent or
malformed, for every field shape. -/
def StructError.fromDeriveInput (input : DeriveInput) : Except Diagnostic StructError :=
  match input.data with
  | .struct fields =>
    match attrs_get_lit_str input.attrs "format" with
    | .ok format =>
      .ok { ident := input.ident, format := format, generics := input.generics
            variant := StructErrorVariant.fromFields fields }
    | .error _ =>
      .error ⟨"failed to get required attribute `format` for macro `StructError`",
        some "add `#[format = \"...\"]`"⟩
  | _ => .error ⟨"the `StructError` only works on structs", some "remove"⟩

/-- The emitted `Display` impl for a struct: `let` bindings of the fields,
then a single `write!(f, fmt, args...)` directly against the type-level
format (no inner match, no composition). -/
structure StructDisplayImpl where
  generics : String
  ident : String
  lets : List (String × CTokens)
  fmt : String
  args : List CTokens
deriving DecidableEq

/-- Source `StructErrorVariant::to_display_impl` (`struct_error.rs`).  Named fields
bind `let #field = #display;` over `self.#field` for every field;
`SingleUnnamed` passes `self.0` as the sole `write!` argument; `Unnamed`
binds `let arg_i = #display;` over `self.i` (those `parse()` calls never
fail to lex); `Unit` just writes the format. -/
def StructErrorVariant.to_display_impl (lex : TokenLex) (sv : StructErrorVariant)
    (self_ident self_generics : String) (self_format : String) : StructDisplayImpl :=
  match sv with
  | .named fields =>
    { generics := self_generics, ident := self_ident
      lets := fields.map
        (fun f => (f.2, display_field lex f.1 (.tok ("self." ++ f.2))))
      fmt := self_format, args := [] }
  | .singleUnnamed =>
    { generics := self_generics, ident := self_ident, lets := []
      fmt := self_format, args := [.tok "self.0"] }
  | .unit =>
    { generics := self_generics, ident := self_ident, lets := []
      fmt := self_format, args := [] }
  | .unnamed displays =>
    { generics := self_generics, ident := self_ident
      lets := displays.enum.map
        (fun p => ("arg_" ++ toString p.1,
          display_field lex p.2 (.tok ("self." ++ toString p.1))))
      fmt := self_format, args := [] }

/-- Source `impl ToTokens for StructError` (`struct_error.rs`). -/
def StructError.toTokens (lex : TokenLex) (s : StructError) : StructDisplayImpl :=
  s.variant.to_display_impl lex s.ident s.generics s.format

/-- The `StructError` derive entry point. -/
def structErrorDerive (lex : TokenLex) (input : DeriveInput) :
    Except Diagnostic StructDisplayImpl :=
  (StructError.fromDeriveInput input).map (StructError.toTokens lex)

/-! ## Semantics of the emitted `Display` code

The emitted fragments call Rust's `format!`/`write!` primitive.  The
evaluator below models that lower-level collaborator: a template string is
instantiated against positional arguments (`\x7b\x7d` holes) and named
placeholders (`\x7bname\x7d` holes, resolved against the bound variables in
scope).  Values are represented by the strings their own `Display`
implementations produce. -/

/-- Bound variables in scope of the emitted code, mapped to the strings
their values render to. -/
abbrev Env := List (String × String)

/-- Evaluate emitted expression tokens to the string their value displays
as.  Foreign expressions (a `display` conversion application) and embedded
`compile_error!` tokens have no value in the model. -/
def evalTok (env : Env) : CTokens → Option String
  | .tok s => env.lookup s
  | .strLit s => some s
  | .compileError _ => none
  | .applyConv _ _ => none

/-- Read a placeholder name up to the closing brace. -/
def readName : List Char → Option (String × List Char)
  | [] => none
  | c :: rest =>
    if c = '}' then some ("", rest)
    else (readName rest).map (fun p => (c.toString ++ p.1, p.2))

/-- Fuelled core of the template instantiation (the fuel is only a
termination device; `instFormat` supplies enough for the whole template). -/
def instFmtF : Nat → List Char → List String → Env → Option String
  | 0, _, _, _ => none
  | _ + 1, [], _, _ => some ""
  | fuel + 1, '{' :: '{' :: rest, pos, env =>
    (instFmtF fuel rest pos env).map (fun t => "\x7b" ++ t)
  | fuel + 1, '}' :: '}' :: rest, pos, env =>
    (instFmtF fuel rest pos env).map (fun t => "\x7d" ++ t)
  | fuel + 1, '{' :: rest, pos, env =>
    match readName rest with
    | none => none
    | some (n, r) =>
      if n = "" then
        match pos with
        | [] => none
        | a :: pos2 => (instFmtF fuel r pos2 env).map (fun t => a ++ t)
      else
        match env.lookup n with
        | none => none
        | some v => (instFmtF fuel r pos env).map (fun t => v ++ t)
  | _ + 1, '}' :: _, _, _ => none
  | fuel + 1, c :: rest, pos, env =>
    (instFmtF fuel rest pos env).map (fun t => c.toString ++ t)

/-- Instantiate a `format!` template against positional arguments and the
named variables in scope. -/
def instFormat (tmpl : String) (pos : List String) (env : Env) : Option String :=
  instFmtF (tmpl.length + 1) tmpl.data pos env

/-- A runtime value of the derived enum: the active variant and the strings
its payload fields render to, in declaration order. -/
structure EnumVal where
  variant : String
  fields : List String
deriving DecidableEq

/-- Match a pattern against the payload, binding its names. -/
def bindPat (p : Pat) (vals : List String) : Option Env :=
  match p with
  | .unitPat _ => if vals = [] then some [] else none
  | .tuplePat _ binders =>
    if binders.length = vals.length then some (binders.zip vals) else none
  | .structPat _ fields =>
    if fields.length = vals.length then some (fields.zip vals) else none

/-- Evaluate one emitted match arm on the matched payload: bind the pattern,
run the `let` bindings in order (later bindings shadow), then instantiate
the arm's `format!`. -/
def evalArm (a : Arm) (vals : List String) : Option String := do
  let env0 ← bindPat a.pat vals
  let env ← a.lets.foldlM
    (fun env p => (evalTok env p.2).map (fun s => (p.1, s) :: env)) env0
  let args ← a.args.mapM (evalTok env)
  instFormat a.fmt args env

/-- Evaluate the emitted `match self { ... }`: the first arm whose pattern
names the active variant runs. -/
def matchEval (arms : List Arm) (v : EnumVal) : Option String :=
  match arms.find? (fun a => a.pat.identOf == v.variant) with
  | some a => evalArm a v.fields
  | none => none

/-- Evaluate one `write!` argument of the emitted enum `Display` body. -/
def evalBodyArg (v : EnumVal) : BodyArg → Option String
  | .matchSelf arms => matchEval arms v
  | .tok t => evalTok [] t

/-- Evaluate the emitted enum `Display` impl on a value: the overall
rendered string. -/
def renderDisplay (d : DisplayImpl) (v : EnumVal) : Option String := do
  let args ← d.args.mapM (evalBodyArg v)
  instFormat d.fmt args []

/-! ## Concrete external collaborators for closed evaluations -/

/-- Modelled external collaborator: a token lexer on which every directive
text lexes (as `LitStr::parse::<TokenStream>` does on balanced input). -/
def tokenLexOk : TokenLex := fun s => .ok s

/-- Modelled external collaborator: a token lexer that fails on the
unbalanced directive text `(` — exactly how `LitStr::parse` fails on it —
and lexes everything else. -/
def tokenLexParen : TokenLex := fun s =>
  if s = "(" then .error "lex error: unexpected end of input" else .ok s

/-! ## Shared helper lemmas -/

/-- The arm emitted for a classified variant matches on that variant's name. -/
theorem pat_identOf_arm (lex : TokenLex) (w : EnumVariant) :
    ((EnumVariant.to_display_match_arm lex w).pat).identOf = w.identOf := by
  cases w with
  | anonymousStruct i fs f => rfl
  | discriminant d f disp i => cases f <;> rfl
  | singleType i disp f ty => cases f <;> rfl
  | tuple i f ds => rfl
  | unit i f => rfl

/-- Selecting the arm of the emitted match by variant name agrees with
selecting the classified variant by name. -/
theorem find?_arm_map (lex : TokenLex) (i : String) (vs : List EnumVariant) :
    (vs.map (EnumVariant.to_display_match_arm lex)).find?
        (fun a => a.pat.identOf == i) =
      (vs.find? (fun w => w.identOf == i)).map
        (EnumVariant.to_display_match_arm lex) := by
  induction vs with
  | nil => rfl
  | cons w ws ih =>
    simp only [List.map_cons, List.find?]
    rw [pat_identOf_arm]
    cases h : (w.identOf == i) with
    | true => simp [h]
    | false => simp [h, ih]

/-! ## Sample inputs used by closed evaluations -/

/-- A well-formed `#[format = s]` attribute. -/
def formatAttr (s : String) : Attribute := ⟨.nameValue "format" (.lit (.str s))⟩

/-- A declaration with two `SingleType` variants wrapping the same payload
type: `enum MyError { A(u8), B(u8) }`. -/
def dupPayloadInput : DeriveInput :=
  ⟨"MyError", [], "", .enum
    [⟨"A", [], .unnamed [⟨[], "u8"⟩], none⟩,
     ⟨"B", [], .unnamed [⟨[], "u8"⟩], none⟩]⟩

/-- An empty enum carrying a type-level `format`:
`#[format = "an error: {}"] enum Empty {}`. -/
def emptyEnumInput : DeriveInput :=
  ⟨"Empty", [formatAttr "an error: {}"], "", .enum []⟩

/-- A `#[display = 5]` attribute: present, but not a string literal. -/
def badDisplayAttr : Attribute := ⟨.nameValue "display" (.lit (.int 5))⟩

/-- Source `#[display = 5] Foo(u8)`: a single-payload variant whose `display`
annotation is present but malformed. -/
def badDisplayVariant : Variant := ⟨"Foo", [badDisplayAttr], .unnamed [⟨[], "u8"⟩], none⟩

/-- A unit struct with no attributes at all. -/
def unitStructInput : DeriveInput := ⟨"NullError", [], "", .struct .unit⟩

/-- A single-positional struct with no attributes at all. -/
def singleStructInput : DeriveInput :=
  ⟨"Wrap", [], "", .struct (.unnamed [⟨[], "u8"⟩])⟩

/-! ## Claim C1 -/

/-- Claim C1, evaluated at the failing input `enum MyError { A(u8), B(u8) }`:
the engine raises no duplicate-payload diagnostic at all.  Generation
succeeds and emits a conversion rule for **both** variants wrapping `u8`
(two conflicting `From<u8>` impls), instead of aborting with a
`DuplicatePayloadType` diagnostic naming `B`. -/
theorem c1_duplicate_payload_no_diagnostic :
    enumErrorDerive tokenLexOk dupPayloadInput = .ok
      ⟨⟨"", "MyError", "{}",
        [.matchSelf
          [⟨.tuplePat "A" ["error"], [], "{}", [.tok "error"]⟩,
           ⟨.tuplePat "B" ["error"], [], "{}", [.tok "error"]⟩]]⟩,
       [⟨"", "u8", "MyError", "A"⟩, ⟨"", "u8", "MyError", "B"⟩]⟩ := rfl

/-! ## Claim C2 -/

/-- Claim C2 counterexample: a sum type with zero variants is **not**
rejected.  Generation succeeds — no `UnsupportedShape` (or any) diagnostic —
and a stringification routine (a `Display` impl whose match has no arms) is
emitted. -/
theorem c2_empty_enum_not_rejected :
    enumErrorDerive tokenLexOk emptyEnumInput =
      .ok ⟨⟨"", "Empty", "an error: {}", [.matchSelf []]⟩, []⟩ := rfl

/-- Claim C2 amended: for every sum-type declaration with zero variants,
and regardless of any annotations present, generation succeeds, emitting a
`Display` impl whose match has no arms and no conversion rules. -/
theorem c2_empty_enum_emits_empty_match (lex : TokenLex) (i g : String)
    (attrs : List Attribute) :
    (enumErrorDerive lex ⟨i, attrs, g, .enum []⟩).map
      (fun fr => (fr.display.args, fr.froms)) = .ok ([.matchSelf []], []) := by
  cases h : (attrs_get_lit_str attrs "format") with
  | ok f =>
    simp [enumErrorDerive, EnumError.fromDeriveInput, h, EnumError.toTokens,
      EnumError.to_display_impl, EnumError.to_from_impls, List.mapM,
      List.mapM.loop, Except.map, Except.toOption]
  | error e =>
    simp [enumErrorDerive, EnumError.fromDeriveInput, h, EnumError.toTokens,
      EnumError.to_display_impl, EnumError.to_from_impls, List.mapM,
      List.mapM.loop, Except.map, Except.toOption]

/-! ## Claim C3 -/

/-- Claim C3 counterexample: on `#[display = 5] Foo(u8)` the resolver does
fail (`NotStringLiteral`, the `WrongAnnotationKind` of the specification),
but classification swallows the error with `.ok()` and succeeds with the
annotation silently treated as absent — nothing is surfaced to the user. -/
theorem c3_nonstring_display_swallowed :
    attrs_get_lit_str [badDisplayAttr] "display" =
      .error (.NotStringLiteral "display") ∧
    EnumVariant.fromVariant badDisplayVariant =
      .ok (.singleType "Foo" none none "u8") := ⟨rfl, rfl⟩

/-- Any failing required-`format` lookup is a resolution failure, and the
diagnostic embeds the resolver's own message after the variant name. -/
theorem get_required_format_error (attrs : List Attribute) (i : String)
    (diag : Diagnostic) (h : get_required_format attrs i = .error diag) :
    ∃ er, attrs_get_lit_str attrs "format" = .error er ∧
      diag = ⟨"failed to get required attribute `format` for variant `" ++ i ++
        "`: " ++ er.toMessage, none⟩ := by
  unfold get_required_format at h
  cases hr : attrs_get_lit_str attrs "format" with
  | ok s => rw [hr] at h; exact Except.noConfusion h
  | error er =>
    rw [hr] at h
    refine ⟨er, rfl, ?_⟩
    injection h with h2
    exact h2.symm

/-- The only abort the field-shape classification can raise is the
required-`format` diagnostic naming the variant. -/
theorem classifyFields_error (v : Variant) (diag : Diagnostic)
    (h : EnumVariant.classifyFields v = .error diag) :
    ∃ er, attrs_get_lit_str v.attrs "format" = .error er ∧
      diag = ⟨"failed to get required attribute `format` for variant `" ++
        v.ident ++ "`: " ++ er.toMessage, none⟩ := by
  rcases v with ⟨i, attrs, flds, disc⟩
  unfold EnumVariant.classifyFields at h
  cases flds with
  | named fs =>
    cases hg : get_required_format attrs i with
    | ok f => rw [hg] at h; exact Except.noConfusion h
    | error e =>
      rw [hg] at h
      have he : e = diag := by injection h
      obtain ⟨er, hr, hd⟩ := get_required_format_error attrs i e hg
      exact ⟨er, hr, he ▸ hd⟩
  | unnamed us =>
    match us with
    | [x] => exact Except.noConfusion h
    | [] =>
      cases hg : get_required_format attrs i with
      | ok f => rw [hg] at h; exact Except.noConfusion h
      | error e =>
        rw [hg] at h
        have he : e = diag := by injection h
        obtain ⟨er, hr, hd⟩ := get_required_format_error attrs i e hg
        exact ⟨er, hr, he ▸ hd⟩
    | x :: y :: r =>
      cases hg : get_required_format attrs i with
      | ok f => rw [hg] at h; exact Except.noConfusion h
      | error e =>
        rw [hg] at h
        have he : e = diag := by injection h
        obtain ⟨er, hr, hd⟩ := get_required_format_error attrs i e hg
        exact ⟨er, hr, he ▸ hd⟩
  | unit =>
    cases hg : get_required_format attrs i with
    | ok f => rw [hg] at h; exact Except.noConfusion h
    | error e =>
      rw [hg] at h
      have he : e = diag := by injection h
      obtain ⟨er, hr, hd⟩ := get_required_format_error attrs i e hg
      exact ⟨er, hr, he ▸ hd⟩

/-- Claim C3 amended: a present non-string annotation value always makes the
resolver fail with `NotStringLiteral`; that failure is surfaced (with the
declaration or variant named) only where the annotation is required —
`format` on the shapes that mandate it and on `StructError` — which is the
only diagnostic either classifier can raise; at every optional site
(`display` on variants, on named and tuple enum fields, and on struct
fields; `format` on `SingleType`, `Discriminant` and the enum type level)
the resolution error is discarded and the annotation is silently treated as
absent. -/
theorem c3_nonstring_resolution :
    (∀ (attrs : List Attribute) (key : String) (a : Attribute) (p : String)
        (v : AExpr), attrs.find? (fun x => x.meta.path == key) = some a →
      a.meta = .nameValue p v → (∀ s, v ≠ .lit (.str s)) →
      attrs_get_lit_str attrs key = .error (.NotStringLiteral key)) ∧
    (∀ (v : Variant) (diag : Diagnostic),
      EnumVariant.fromVariant v = .error diag →
      (attrs_get_lit_str v.attrs "format").isOk = false ∧
      ∀ er, attrs_get_lit_str v.attrs "format" = .error er →
        diag = ⟨"failed to get required attribute `format` for variant `" ++
          v.ident ++ "`: " ++ er.toMessage, none⟩) ∧
    (∀ (input : DeriveInput) (fields : Fields) (diag : Diagnostic),
      input.data = .struct fields →
      StructError.fromDeriveInput input = .error diag →
      (attrs_get_lit_str input.attrs "format").isOk = false ∧
      diag = ⟨"failed to get required attribute `format` for macro `StructError`",
        some "add `#[format = \"...\"]`"⟩) ∧
    (∀ (i : String) (attrs fa : List Attribute) (ty : String)
        (er : AttrsGetLitStrError),
      attrs_get_lit_str attrs "display" = .error er →
      EnumVariant.fromVariant ⟨i, attrs, .unnamed [⟨fa, ty⟩], none⟩ =
        .ok (.singleType i none (attrs_get_lit_str attrs "format").toOption ty)) ∧
    (∀ (i : String) (attrs fa : List Attribute) (ty : String)
        (er : AttrsGetLitStrError),
      attrs_get_lit_str attrs "format" = .error er →
      EnumVariant.fromVariant ⟨i, attrs, .unnamed [⟨fa, ty⟩], none⟩ =
        .ok (.singleType i (attrs_get_lit_str attrs "display").toOption none ty)) ∧
    (∀ (i dd : String) (attrs : List Attribute) (er : AttrsGetLitStrError),
      attrs_get_lit_str attrs "display" = .error er →
      EnumVariant.fromVariant ⟨i, attrs, .unit, some dd⟩ =
        .ok (.discriminant dd (attrs_get_lit_str attrs "format").toOption none i)) ∧
    (∀ (i dd : String) (attrs : List Attribute) (er : AttrsGetLitStrError),
      attrs_get_lit_str attrs "format" = .error er →
      EnumVariant.fromVariant ⟨i, attrs, .unit, some dd⟩ =
        .ok (.discriminant dd none (attrs_get_lit_str attrs "display").toOption i)) ∧
    (∀ (i g : String) (attrs : List Attribute) (vs : List Variant)
        (cs : List EnumVariant) (er : AttrsGetLitStrError),
      vs.mapM EnumVariant.fromVariant = .ok cs →
      attrs_get_lit_str attrs "format" = .error er →
      EnumError.fromDeriveInput ⟨i, attrs, g, .enum vs⟩ = .ok ⟨i, none, g, cs⟩) ∧
    (∀ (i fmt : String) (attrs : List Attribute) (fs : List FieldNamed)
        (f : FieldNamed) (er : AttrsGetLitStrError),
      get_required_format attrs i = .ok fmt → f ∈ fs →
      attrs_get_lit_str f.attrs "display" = .error er →
      EnumVariant.fromVariant ⟨i, attrs, .named fs, none⟩ =
        .ok (.anonymousStruct i
          (fs.map fun g2 => ((attrs_get_lit_str g2.attrs "display").toOption, g2.ident))
          fmt) ∧
      (none, f.ident) ∈
        fs.map fun g2 => ((attrs_get_lit_str g2.attrs "display").toOption, g2.ident)) ∧
    (∀ (i fmt : String) (attrs : List Attribute) (us : List FieldUnnamed)
        (u : FieldUnnamed) (er : AttrsGetLitStrError),
      get_required_format attrs i = .ok fmt → us.length ≠ 1 → u ∈ us →
      attrs_get_lit_str u.attrs "display" = .error er →
      EnumVariant.fromVariant ⟨i, attrs, .unnamed us, none⟩ =
        .ok (.tuple i fmt
          (us.map fun g2 => (attrs_get_lit_str g2.attrs "display").toOption)) ∧
      none ∈ us.map fun g2 => (attrs_get_lit_str g2.attrs "display").toOption) ∧
    (∀ (fs : List FieldNamed) (f : FieldNamed) (er : AttrsGetLitStrError),
      f ∈ fs → attrs_get_lit_str f.attrs "display" = .error er →
      StructErrorVariant.fromFields (.named fs) =
        .named (fs.map fun g2 =>
          ((attrs_get_lit_str g2.attrs "display").toOption, g2.ident)) ∧
      (none, f.ident) ∈
        fs.map fun g2 => ((attrs_get_lit_str g2.attrs "display").toOption, g2.ident)) ∧
    (∀ (us : List FieldUnnamed) (u : FieldUnnamed) (er : AttrsGetLitStrError),
      us.length ≠ 1 → u ∈ us →
      attrs_get_lit_str u.attrs "display" = .error er →
      StructErrorVariant.fromFields (.unnamed us) =
        .unnamed (us.map fun g2 => (attrs_get_lit_str g2.attrs "display").toOption) ∧
      none ∈ us.map fun g2 => (attrs_get_lit_str g2.attrs "display").toOption) := by
  refine ⟨?_, ?_, ?_, ?_, ?_, ?_, ?_, ?_, ?_, ?_, ?_, ?_⟩
  · intro attrs key a p v hfind hmeta hnon
    simp only [attrs_get_lit_str, attrs_get_value, hfind, hmeta]
    cases v with
    | lit l =>
      cases l with
      | str s => exact absurd rfl (hnon s)
      | int n => rfl
      | other => rfl
    | nonLit => rfl
  · intro v diag h
    have hex : ∃ er, attrs_get_lit_str v.attrs "format" = .error er ∧
        diag = ⟨"failed to get required attribute `format` for variant `" ++
          v.ident ++ "`: " ++ er.toMessage, none⟩ := by
      rcases v with ⟨i, attrs, flds, disc⟩
      cases disc with
      | some dd =>
        cases flds with
        | unit => exact Except.noConfusion h
        | named fs => exact classifyFields_error ⟨i, attrs, .named fs, some dd⟩ diag h
        | unnamed us => exact classifyFields_error ⟨i, attrs, .unnamed us, some dd⟩ diag h
      | none =>
        cases flds with
        | unit => exact classifyFields_error ⟨i, attrs, .unit, none⟩ diag h
        | named fs => exact classifyFields_error ⟨i, attrs, .named fs, none⟩ diag h
        | unnamed us => exact classifyFields_error ⟨i, attrs, .unnamed us, none⟩ diag h
    obtain ⟨er, hr, hd⟩ := hex
    refine ⟨by rw [hr]; rfl, fun er2 hr2 => ?_⟩
    rw [hr] at hr2
    injection hr2 with h3
    rw [hd, ← h3]
  · intro input fields diag hdata h
    unfold StructError.fromDeriveInput at h
    rw [hdata] at h
    cases hr : attrs_get_lit_str input.attrs "format" with
    | ok s => rw [hr] at h; exact Except.noConfusion h
    | error er =>
      rw [hr] at h
      refine ⟨rfl, ?_⟩
      injection h with h2
      exact h2.symm
  · intro i attrs fa ty er h
    simp [EnumVariant.fromVariant, EnumVariant.classifyFields, h, Except.toOption]
  · intro i attrs fa ty er h
    simp [EnumVariant.fromVariant, EnumVariant.classifyFields, h, Except.toOption]
  · intro i dd attrs er h
    simp [EnumVariant.fromVariant, h, Except.toOption]
  · intro i dd attrs er h
    simp [EnumVariant.fromVariant, h, Except.toOption]
  · intro i g attrs vs cs er hm h
    simp only [List.mapM] at hm
    simp [EnumError.fromDeriveInput, hm, h, Except.toOption]
    rfl
  · intro i fmt attrs fs f er hfmt hmem hdisp
    constructor
    · simp only [EnumVariant.fromVariant, EnumVariant.classifyFields, hfmt]
      rfl
    · have h2 := List.mem_map_of_mem
        (fun g2 : FieldNamed =>
          ((attrs_get_lit_str g2.attrs "display").toOption, g2.ident)) hmem
      simp only [hdisp, Except.toOption] at h2
      exact h2
  · intro i fmt attrs us u er hfmt hlen hmem hdisp
    have h2 := List.mem_map_of_mem
      (fun g2 : FieldUnnamed => (attrs_get_lit_str g2.attrs "display").toOption)
      hmem
    simp only [hdisp, Except.toOption] at h2
    match us, hlen, hmem, h2 with
    | [], hlen, hmem, h2 => exact absurd hmem (List.not_mem_nil u)
    | [x], hlen, hmem, h2 => exact absurd rfl hlen
    | x :: y :: r, hlen, hmem, h2 =>
      refine ⟨?_, h2⟩
      simp only [EnumVariant.fromVariant, EnumVariant.classifyFields, hfmt]
      rfl
  · intro fs f er hmem hdisp
    have h2 := List.mem_map_of_mem
      (fun g2 : FieldNamed =>
        ((attrs_get_lit_str g2.attrs "display").toOption, g2.ident)) hmem
    simp only [hdisp, Except.toOption] at h2
    exact ⟨rfl, h2⟩
  · intro us u er hlen hmem hdisp
    have h2 := List.mem_map_of_mem
      (fun g2 : FieldUnnamed => (attrs_get_lit_str g2.attrs "display").toOption)
      hmem
    simp only [hdisp, Except.toOption] at h2
    match us, hlen, hmem, h2 with
    | [], hlen, hmem, h2 => exact absurd hmem (List.not_mem_nil u)
    | [x], hlen, hmem, h2 => exact absurd rfl hlen
    | x :: y :: r, hlen, hmem, h2 => exact ⟨rfl, h2⟩

/-- A `#[format = 7]` attribute: present, but not a string literal. -/
def badFormatAttr : Attribute := ⟨.nameValue "format" (.lit (.int 7))⟩

/-- Witness for C3 (amended), applying each part at concrete inputs: the
resolver fails on a present non-string `format`; the diagnostic of a
tuple variant that lacks a resolvable `format` is the one naming it; a unit
struct without `format` aborts with the `StructError` diagnostic; a
malformed `display` (or optional `format`) on single-payload, discriminant,
type-level, named-field, tuple-field and struct-field positions is treated
as absent. -/
theorem c3_witness :
    attrs_get_lit_str [badFormatAttr] "format" =
      .error (.NotStringLiteral "format") ∧
    ((attrs_get_lit_str ([] : List Attribute) "format").isOk = false ∧
      (⟨"failed to get required attribute `format` for variant `" ++ "Tup" ++
          "`: " ++ AttrsGetLitStrError.toMessage (.GetError (.NotFound "format")),
        none⟩ : Diagnostic) =
        ⟨"failed to get required attribute `format` for variant `" ++ "Tup" ++
          "`: " ++ AttrsGetLitStrError.toMessage (.GetError (.NotFound "format")),
        none⟩) ∧
    ((attrs_get_lit_str ([] : List Attribute) "format").isOk = false ∧
      (⟨"failed to get required attribute `format` for macro `StructError`",
        some "add `#[format = \"...\"]`"⟩ : Diagnostic) =
        ⟨"failed to get required attribute `format` for macro `StructError`",
          some "add `#[format = \"...\"]`"⟩) ∧
    EnumVariant.fromVariant ⟨"Foo", [badDisplayAttr], .unnamed [⟨[], "u8"⟩], none⟩ =
      .ok (.singleType "Foo" none
        (attrs_get_lit_str [badDisplayAttr] "format").toOption "u8") ∧
    EnumVariant.fromVariant ⟨"Foo", [badFormatAttr], .unnamed [⟨[], "u8"⟩], none⟩ =
      .ok (.singleType "Foo"
        (attrs_get_lit_str [badFormatAttr] "display").toOption none "u8") ∧
    EnumVariant.fromVariant ⟨"NotFound", [badDisplayAttr], .unit, some "404"⟩ =
      .ok (.discriminant "404"
        (attrs_get_lit_str [badDisplayAttr] "format").toOption none "NotFound") ∧
    EnumVariant.fromVariant ⟨"NotFound", [badFormatAttr], .unit, some "404"⟩ =
      .ok (.discriminant "404" none
        (attrs_get_lit_str [badFormatAttr] "display").toOption "NotFound") ∧
    EnumError.fromDeriveInput ⟨"E", [badFormatAttr], "", .enum []⟩ =
      .ok ⟨"E", none, "", []⟩ ∧
    (EnumVariant.fromVariant
        ⟨"Dec", [formatAttr "f"], .named [⟨[badDisplayAttr], "file", "Str"⟩], none⟩ =
      .ok (.anonymousStruct "Dec"
        ([(⟨[badDisplayAttr], "file", "Str"⟩ : FieldNamed)].map fun g2 =>
          ((attrs_get_lit_str g2.attrs "display").toOption, g2.ident)) "f") ∧
      (none, "file") ∈
        [(⟨[badDisplayAttr], "file", "Str"⟩ : FieldNamed)].map fun g2 =>
          ((attrs_get_lit_str g2.attrs "display").toOption, g2.ident)) ∧
    (EnumVariant.fromVariant
        ⟨"Pair", [formatAttr "f"],
          .unnamed [⟨[badDisplayAttr], "u8"⟩, ⟨[], "u16"⟩], none⟩ =
      .ok (.tuple "Pair" "f"
        ([(⟨[badDisplayAttr], "u8"⟩ : FieldUnnamed), ⟨[], "u16"⟩].map fun g2 =>
          (attrs_get_lit_str g2.attrs "display").toOption)) ∧
      none ∈ [(⟨[badDisplayAttr], "u8"⟩ : FieldUnnamed), ⟨[], "u16"⟩].map fun g2 =>
        (attrs_get_lit_str g2.attrs "display").toOption) ∧
    (StructErrorVariant.fromFields (.named [⟨[badDisplayAttr], "x", "u8"⟩]) =
      .named ([(⟨[badDisplayAttr], "x", "u8"⟩ : FieldNamed)].map fun g2 =>
        ((attrs_get_lit_str g2.attrs "display").toOption, g2.ident)) ∧
      (none, "x") ∈ [(⟨[badDisplayAttr], "x", "u8"⟩ : FieldNamed)].map fun g2 =>
        ((attrs_get_lit_str g2.attrs "display").toOption, g2.ident)) ∧
    (StructErrorVariant.fromFields
        (.unnamed [⟨[badDisplayAttr], "u8"⟩, ⟨[], "u16"⟩]) =
      .unnamed ([(⟨[badDisplayAttr], "u8"⟩ : FieldUnnamed), ⟨[], "u16"⟩].map fun g2 =>
        (attrs_get_lit_str g2.attrs "display").toOption) ∧
      none ∈ [(⟨[badDisplayAttr], "u8"⟩ : FieldUnnamed), ⟨[], "u16"⟩].map fun g2 =>
        (attrs_get_lit_str g2.attrs "display").toOption) := by
  obtain ⟨pA, pB, pC, pD1, pD2, pD3, pD4, pD5, pE1, pE2, pE3, pE4⟩ :=
    c3_nonstring_resolution
  refine ⟨?_, ?_, ?_, ?_, ?_, ?_, ?_, ?_, ?_, ?_, ?_, ?_⟩
  · exact pA [badFormatAttr] "format" badFormatAttr "format" (.lit (.int 7))
      rfl rfl (fun s h => by cases h)
  · have := pB ⟨"Tup", [], .unnamed [⟨[], "u8"⟩, ⟨[], "u16"⟩], none⟩
      ⟨"failed to get required attribute `format` for variant `" ++ "Tup" ++
        "`: " ++ AttrsGetLitStrError.toMessage (.GetError (.NotFound "format")),
        none⟩ rfl
    exact ⟨this.1, this.2 (.GetError (.NotFound "format")) rfl⟩
  · exact pC unitStructInput .unit
      ⟨"failed to get required attribute `format` for macro `StructError`",
        some "add `#[format = \"...\"]`"⟩ rfl rfl
  · exact pD1 "Foo" [badDisplayAttr] [] "u8" (.NotStringLiteral "display") rfl
  · exact pD2 "Foo" [badFormatAttr] [] "u8" (.NotStringLiteral "format") rfl
  · exact pD3 "NotFound" "404" [badDisplayAttr] (.NotStringLiteral "display") rfl
  · exact pD4 "NotFound" "404" [badFormatAttr] (.NotStringLiteral "format") rfl
  · exact pD5 "E" "" [badFormatAttr] [] [] (.NotStringLiteral "format") rfl rfl
  · exact pE1 "Dec" "f" [formatAttr "f"] [⟨[badDisplayAttr], "file", "Str"⟩]
      ⟨[badDisplayAttr], "file", "Str"⟩ (.NotStringLiteral "display") rfl
      (List.mem_singleton_self _) rfl
  · exact pE2 "Pair" "f" [formatAttr "f"]
      [⟨[badDisplayAttr], "u8"⟩, ⟨[], "u16"⟩] ⟨[badDisplayAttr], "u8"⟩
      (.NotStringLiteral "display") rfl (by decide) (List.mem_cons_self _ _) rfl
  · exact pE3 [⟨[badDisplayAttr], "x", "u8"⟩] ⟨[badDisplayAttr], "x", "u8"⟩
      (.NotStringLiteral "display") (List.mem_singleton_self _) rfl
  · exact pE4 [⟨[badDisplayAttr], "u8"⟩, ⟨[], "u16"⟩] ⟨[badDisplayAttr], "u8"⟩
      (.NotStringLiteral "display") (by decide) (List.mem_cons_self _ _) rfl

/-! ## Claim C5 -/

/-- Claim C5: a conversion rule is emitted exactly for `SingleType` variants
carrying no explicit `format`, and it wraps the payload type into that
variant; every other classified shape (and every `SingleType` with a
`format`) produces none. -/
theorem c5_from_impl_iff_single_type_no_format (v : EnumVariant)
    (onto generics : String) :
    (∀ i d ty, v = .singleType i d none ty →
      EnumVariant.to_from_impl v onto generics = some ⟨generics, ty, onto, i⟩) ∧
    ((∀ i d ty, v ≠ EnumVariant.singleType i d none ty) →
      EnumVariant.to_from_impl v onto generics = none) := by
  refine ⟨fun i d ty h => by subst h; rfl, fun h => ?_⟩
  cases v with
  | singleType i d f ty =>
    cases f with
    | none => exact absurd rfl (h i d ty)
    | some s => rfl
  | anonymousStruct i fs f => rfl
  | discriminant a b c i => rfl
  | tuple i f ds => rfl
  | unit i f => rfl

/-- Witness for C5 at concrete variants: `Io(std::io::Error)` without a
`format` yields the wrapping conversion rule; the same variant with a
`format` yields none. -/
theorem c5_witness :
    EnumVariant.to_from_impl (.singleType "Io" none none "std::io::Error")
      "MyError" "" = some ⟨"", "std::io::Error", "MyError", "Io"⟩ ∧
    EnumVariant.to_from_impl (.singleType "Io" none (some "fmt") "std::io::Error")
      "MyError" "" = none := by
  constructor
  · exact (c5_from_impl_iff_single_type_no_format _ "MyError" "").1 "Io" none
      "std::io::Error" rfl
  · refine (c5_from_impl_iff_single_type_no_format _ "MyError" "").2 ?_
    intro i d ty h
    simp at h

/-! ## Claim C10 -/

/-- Claim C10: a product-type derive requires the type-level `format` for
every field shape: when the attribute does not resolve to a string literal
the whole generation aborts with the `StructError` missing-format
diagnostic, and when it resolves generation proceeds. -/
theorem c10_struct_requires_format (input : DeriveInput) (fields : Fields)
    (e : AttrsGetLitStrError) (hdata : input.data = .struct fields) :
    (attrs_get_lit_str input.attrs "format" = .error e →
      StructError.fromDeriveInput input = .error
        ⟨"failed to get required attribute `format` for macro `StructError`",
          some "add `#[format = \"...\"]`"⟩) ∧
    (∀ format, attrs_get_lit_str input.attrs "format" = .ok format →
      StructError.fromDeriveInput input = .ok
        ⟨input.ident, format, input.generics,
          StructErrorVariant.fromFields fields⟩) := by
  constructor
  · intro h
    unfold StructError.fromDeriveInput
    rw [hdata, h]
  · intro format h
    unfold StructError.fromDeriveInput
    rw [hdata, h]

/-- Witness for C10 at a unit struct and a single-positional struct, both
without any `format` attribute: generation aborts for both. -/
theorem c10_witness :
    StructError.fromDeriveInput unitStructInput = .error
      ⟨"failed to get required attribute `format` for macro `StructError`",
        some "add `#[format = \"...\"]`"⟩ ∧
    StructError.fromDeriveInput singleStructInput = .error
      ⟨"failed to get required attribute `format` for macro `StructError`",
        some "add `#[format = \"...\"]`"⟩ := by
  constructor
  · exact (c10_struct_requires_format unitStructInput .unit
      (.GetError (.NotFound "format")) rfl).1 rfl
  · exact (c10_struct_requires_format singleStructInput (.unnamed [⟨[], "u8"⟩])
      (.GetError (.NotFound "format")) rfl).1 rfl

/-! ## Claim C4 -/

/-- An enum with a `display` directive whose text does not lex/parse:
`enum E { #[display = "("] Foo(u8), Bar(i16) }`. -/
def malformedDisplayInput : DeriveInput :=
  ⟨"E", [], "",
   .enum [⟨"Foo", [⟨.nameValue "display" (.lit (.str "("))⟩],
            .unnamed [⟨[], "u8"⟩], none⟩,
          ⟨"Bar", [], .unnamed [⟨[], "i16"⟩], none⟩]⟩

/-- Claim C4 counterexample: a `display` directive whose text fails to parse
does **not** abort generation with a `MalformedOverrideExpression` error.
Generation succeeds and a fragment is produced: the parse error is embedded
as a `compile_error!` invocation inside the affected arm, while every other
arm and both conversion rules are still emitted. -/
theorem c4_malformed_display_emits_fragment :
    enumErrorDerive tokenLexParen malformedDisplayInput = .ok
      ⟨⟨"", "E", "{}",
        [.matchSelf
          [⟨.tuplePat "Foo" ["error"], [], "{}",
            [.applyConv (.compileError "lex error: unexpected end of input")
              (.tok "error")]⟩,
           ⟨.tuplePat "Bar" ["error"], [], "{}", [.tok "error"]⟩]]⟩,
       [⟨"", "u8", "E", "Foo"⟩, ⟨"", "i16", "E", "Bar"⟩]⟩ := rfl

/-- Claim C4 amended: diagnostics (wrong declaration kind, missing required
`format`) abort the whole generation with no fragment, but a `display` text
that fails to parse is not such an error: whether and how generation aborts
is independent of the token lexer; the parse failure is embedded by
`display_field` as a `compile_error!` invocation inside the emitted
fragment; and the emitted fragment always carries an arm for every
classified variant (it is never truncated). -/
theorem c4_display_parse_failure_no_abort (lex lex2 : TokenLex)
    (input : DeriveInput) (diag : Diagnostic) (d m : String) (t : CTokens)
    (e : EnumError) :
    (enumErrorDerive lex input = .error diag ↔
      enumErrorDerive lex2 input = .error diag) ∧
    (lex d = .error m →
      display_field lex (some d) t = .applyConv (.compileError m) t) ∧
    ((EnumError.toTokens lex e).display.args =
      [.matchSelf (e.variants.map (EnumVariant.to_display_match_arm lex))]) := by
  refine ⟨?_, fun h => by simp [display_field, h], ?_⟩
  · cases h : EnumError.fromDeriveInput input with
    | ok e2 => simp [enumErrorDerive, h, Except.map]
    | error e2 => simp [enumErrorDerive, h, Except.map]
  · cases h : e.format with
    | some f => simp [EnumError.toTokens, EnumError.to_display_impl, h]
    | none => simp [EnumError.toTokens, EnumError.to_display_impl, h]

/-- Witness for C4 (amended) at the failing lexer and the text `(`: the
embedded-compile-error mechanism at a concrete input. -/
theorem c4_witness :
    tokenLexParen "(" = .error "lex error: unexpected end of input" ∧
    display_field tokenLexParen (some "(") (.tok "error") =
      .applyConv (.compileError "lex error: unexpected end of input")
        (.tok "error") := by
  refine ⟨rfl, ?_⟩
  exact (c4_display_parse_failure_no_abort tokenLexParen tokenLexParen
    malformedDisplayInput ⟨"", none⟩ "(" "lex error: unexpected end of input"
    (.tok "error") ⟨"E", none, "", []⟩).2.1 rfl

/-! ## Claim C6 -/

/-- The five classified payload shapes, as bare tags. -/
inductive ShapeTag where
  | discr
  | single
  | tup
  | anon
  | unitTag
deriving DecidableEq

/-- The shape tag of a classified variant. -/
def EnumVariant.tagOf : EnumVariant → ShapeTag
  | .anonymousStruct .. => .anon
  | .discriminant .. => .discr
  | .singleType .. => .single
  | .tuple .. => .tup
  | .unit .. => .unitTag

/-- Modelled from the amended claim wording: classification is decided by
the discriminant-with-unit-fields test first, then by the **syntactic
shape** of the field list (not its arity): a unit field list gives `Unit`, a
named field list gives `AnonymousStruct` (even with zero fields), an
unnamed field list gives `SingleType` exactly when it has one field and
`Tuple` otherwise (zero or two-plus fields). -/
def specClassifyShape (v : Variant) : ShapeTag :=
  match v.discriminant, v.fields with
  | some _, .unit => .discr
  | _, .named _ => .anon
  | _, .unnamed fields => if fields.length = 1 then .single else .tup
  | _, .unit => .unitTag

/-- Source `Foo()` with a `format`: an unnamed field list with zero fields. -/
def zeroTupleVariant : Variant := ⟨"Foo", [formatAttr "f"], .unnamed [], none⟩

/-- Claim C6 counterexample: a variant with zero fields written with an
unnamed (parenthesised) field list — `Foo()` — is classified `Tuple`, not
`Unit` as the claim's "0 fields giving Unit" rule demands. -/
theorem c6_zero_unnamed_fields_is_tuple :
    EnumVariant.fromVariant zeroTupleVariant = .ok (.tuple "Foo" "f" []) ∧
    (EnumVariant.tuple "Foo" "f" [] ≠ .unit "Foo" "f") := ⟨rfl, by decide⟩

/-- Claim C6 amended: whenever classification succeeds, the resulting shape
is `specClassifyShape`: discriminant-with-unit-fields first, otherwise the
syntactic field-list shape decides (with the discriminant value discarded);
`Foo()` counts as a zero-length tuple, not as `Unit`. -/
theorem c6_classification_order (v : Variant) (c : EnumVariant)
    (h : EnumVariant.fromVariant v = .ok c) :
    c.tagOf = specClassifyShape v := by
  rcases v with ⟨i, attrs, fields, disc⟩
  unfold EnumVariant.fromVariant at h
  cases disc with
  | some d =>
    cases fields with
    | unit =>
      simp only [] at h
      cases h
      rfl
    | named fs =>
      unfold EnumVariant.classifyFields at h
      simp only [] at h
      cases hf : get_required_format attrs i with
      | ok f => rw [hf] at h; cases h; rfl
      | error er => rw [hf] at h; cases h
    | unnamed fs =>
      unfold EnumVariant.classifyFields at h
      match fs with
      | [] =>
        simp only [] at h
        cases hf : get_required_format attrs i with
        | ok f => rw [hf] at h; cases h; rfl
        | error er => rw [hf] at h; cases h
      | [fd] =>
        simp only [] at h
        cases h
        rfl
      | fd :: fd2 :: rest =>
        simp only [] at h
        cases hf : get_required_format attrs i with
        | ok f =>
          rw [hf] at h; cases h
          simp [EnumVariant.tagOf, specClassifyShape]
        | error er => rw [hf] at h; cases h
  | none =>
    cases fields with
    | unit =>
      unfold EnumVariant.classifyFields at h
      simp only [] at h
      cases hf : get_required_format attrs i with
      | ok f => rw [hf] at h; cases h; rfl
      | error er => rw [hf] at h; cases h
    | named fs =>
      unfold EnumVariant.classifyFields at h
      simp only [] at h
      cases hf : get_required_format attrs i with
      | ok f => rw [hf] at h; cases h; rfl
      | error er => rw [hf] at h; cases h
    | unnamed fs =>
      unfold EnumVariant.classifyFields at h
      match fs with
      | [] =>
        simp only [] at h
        cases hf : get_required_format attrs i with
        | ok f => rw [hf] at h; cases h; rfl
        | error er => rw [hf] at h; cases h
      | [fd] =>
        simp only [] at h
        cases h
        rfl
      | fd :: fd2 :: rest =>
        simp only [] at h
        cases hf : get_required_format attrs i with
        | ok f =>
          rw [hf] at h; cases h
          simp [EnumVariant.tagOf, specClassifyShape]
        | error er => rw [hf] at h; cases h

/-- Witness for C6 (amended) at `Foo()`: the classified shape tag is the
zero-length tuple, as `specClassifyShape` predicts. -/
theorem c6_witness :
    (EnumVariant.tuple "Foo" "f" []).tagOf = specClassifyShape zeroTupleVariant :=
  c6_classification_order zeroTupleVariant (.tuple "Foo" "f" []) rfl

/-! ## Claim C9 -/

/-- The shapes for which the claim mandates a `format` directive:
everything except `SingleType` and `Discriminant`. -/
def formatRequired (v : Variant) : Bool :=
  match v.discriminant, v.fields with
  | some _, .unit => false
  | _, .named _ => true
  | _, .unnamed fields => decide (fields.length ≠ 1)
  | _, .unit => true

/-- Claim C9: variants classified `Tuple`, `AnonymousStruct` or `Unit`
require a `format`: when it is absent or malformed, classification aborts
with the missing-format diagnostic naming the variant.  `SingleType` and
`Discriminant` variants never fail for lack of one. -/
theorem c9_format_required_by_shape (v : Variant) (e : AttrsGetLitStrError) :
    (formatRequired v = true → attrs_get_lit_str v.attrs "format" = .error e →
      EnumVariant.fromVariant v = .error
        ⟨"failed to get required attribute `format` for variant `" ++ v.ident ++
          "`: " ++ e.toMessage, none⟩) ∧
    (formatRequired v = false → (EnumVariant.fromVariant v).isOk = true) := by
  rcases v with ⟨i, attrs, fields, disc⟩
  constructor
  · intro hreq herr
    cases disc with
    | some d =>
      cases fields with
      | unit => simp [formatRequired] at hreq
      | named fs =>
        simp only [EnumVariant.fromVariant, EnumVariant.classifyFields,
          get_required_format, herr]
        rfl
      | unnamed fs =>
        match fs with
        | [] =>
          simp only [EnumVariant.fromVariant, EnumVariant.classifyFields,
            get_required_format, herr]
          rfl
        | [fd] => simp [formatRequired] at hreq
        | fd :: fd2 :: rest =>
          simp only [EnumVariant.fromVariant, EnumVariant.classifyFields,
            get_required_format, herr]
          rfl
    | none =>
      cases fields with
      | unit =>
        simp only [EnumVariant.fromVariant, EnumVariant.classifyFields,
          get_required_format, herr]
        rfl
      | named fs =>
        simp only [EnumVariant.fromVariant, EnumVariant.classifyFields,
          get_required_format, herr]
        rfl
      | unnamed fs =>
        match fs with
        | [] =>
          simp only [EnumVariant.fromVariant, EnumVariant.classifyFields,
            get_required_format, herr]
          rfl
        | [fd] => simp [formatRequired] at hreq
        | fd :: fd2 :: rest =>
          simp only [EnumVariant.fromVariant, EnumVariant.classifyFields,
            get_required_format, herr]
          rfl
  · intro hopt
    cases disc with
    | some d =>
      cases fields with
      | unit => rfl
      | named fs => simp [formatRequired] at hopt
      | unnamed fs =>
        match fs with
        | [] => simp [formatRequired] at hopt
        | [fd] => rfl
        | fd :: fd2 :: rest => simp [formatRequired] at hopt
    | none =>
      cases fields with
      | unit => simp [formatRequired] at hopt
      | named fs => simp [formatRequired] at hopt
      | unnamed fs =>
        match fs with
        | [] => simp [formatRequired] at hopt
        | [fd] => rfl
        | fd :: fd2 :: rest => simp [formatRequired] at hopt

/-- Witness for C9: a unit variant with no attributes aborts with the
missing-format diagnostic naming it, while a single-payload variant with no
attributes classifies without error. -/
theorem c9_witness :
    EnumVariant.fromVariant ⟨"Baz", [], .unit, none⟩ = .error
      ⟨"failed to get required attribute `format` for variant `" ++ "Baz" ++
        "`: " ++ AttrsGetLitStrError.toMessage (.GetError (.NotFound "format")),
        none⟩ ∧
    (EnumVariant.fromVariant ⟨"Qux", [], .unnamed [⟨[], "u8"⟩], none⟩).isOk
      = true := by
  constructor
  · exact (c9_format_required_by_shape ⟨"Baz", [], .unit, none⟩
      (.GetError (.NotFound "format"))).1 rfl rfl
  · exact (c9_format_required_by_shape ⟨"Qux", [], .unnamed [⟨[], "u8"⟩], none⟩
      (.GetError (.NotFound "format"))).2 rfl

/-! ## Claim C7 -/

/-- Claim C7: for a `SingleType` variant with no `format` and no `display`,
under a type with no type-level `format`, the emitted stringification of a
value constructed via that variant is exactly the rendering of the wrapped
payload: both the arm and the outer `write!` go through the literal
template `"{}"` applied to the payload. -/
theorem c7_single_type_delegates (lex : TokenLex) (e : EnumError)
    (i ty p : String) (hfmt : e.format = none)
    (hfind : e.variants.find? (fun w => w.identOf == i) =
      some (.singleType i none none ty)) :
    renderDisplay (e.to_display_impl lex) ⟨i, [p]⟩ = some p := by
  have harm : EnumVariant.to_display_match_arm lex (.singleType i none none ty) =
      ⟨.tuplePat i ["error"], [], "{}", [.tok "error"]⟩ := rfl
  have hnone : renderDisplay (e.to_display_impl lex) ⟨i, [p]⟩ =
      matchEval (e.variants.map (EnumVariant.to_display_match_arm lex)) ⟨i, [p]⟩ := by
    simp only [renderDisplay, EnumError.to_display_impl, hfmt]
    cases hm : matchEval (e.variants.map (EnumVariant.to_display_match_arm lex))
        ⟨i, [p]⟩ with
    | none => simp [List.mapM, List.mapM.loop, evalBodyArg, hm]
    | some r =>
      simp [List.mapM, List.mapM.loop, evalBodyArg, hm, instFormat, instFmtF,
        readName]
  have hfind2 : (e.variants.map (EnumVariant.to_display_match_arm lex)).find?
      (fun a => a.pat.identOf == i) =
      some ⟨.tuplePat i ["error"], [], "{}", [.tok "error"]⟩ := by
    rw [find?_arm_map, hfind]
    simp [harm]
  rw [hnone]
  show (match (e.variants.map (EnumVariant.to_display_match_arm lex)).find?
      (fun a => a.pat.identOf == i) with
    | some a => evalArm a [p]
    | none => none) = some p
  rw [hfind2]
  show evalArm ⟨.tuplePat i ["error"], [], "{}", [.tok "error"]⟩ [p] = some p
  simp [evalArm, bindPat, evalTok, List.foldlM, List.mapM, List.mapM.loop,
    List.lookup, instFormat, instFmtF, readName]

/-- A concrete enum for C7: `enum MyError { Wrapped(Inner) }`, no
annotations anywhere. -/
def singleVariantEnum : EnumError :=
  ⟨"MyError", none, "", [.singleType "Wrapped" none none "Inner"]⟩

/-- Witness for C7 at `Wrapped(innerValue)` where the payload renders
`"boom"`: the wrapped value renders `"boom"` as well. -/
theorem c7_witness :
    renderDisplay (singleVariantEnum.to_display_impl tokenLexOk)
      ⟨"Wrapped", ["boom"]⟩ = some "boom" :=
  c7_single_type_delegates tokenLexOk singleVariantEnum "Wrapped" "Inner"
    "boom" rfl rfl

/-! ## Claim C8 -/

/-- Claim C8: with a type-level `format`, the overall rendering is that
template instantiated with exactly one positional argument — the matched
variant's rendered string; with no type-level `format`, the variant's
rendered string is the final output; and a product type's emitted impl uses
the type-level template directly as its own `write!` template (no two-stage
composition — its `write!` arguments cannot even contain a match). -/
theorem c8_type_level_composition (lex : TokenLex) (e : EnumError)
    (v : EnumVal) (s : StructError) (f : String) :
    (e.format = some f →
      renderDisplay (e.to_display_impl lex) v =
        (matchEval (e.variants.map (EnumVariant.to_display_match_arm lex)) v).bind
          (fun r => instFormat f [r] [])) ∧
    (e.format = none →
      renderDisplay (e.to_display_impl lex) v =
        matchEval (e.variants.map (EnumVariant.to_display_match_arm lex)) v) ∧
    (StructError.toTokens lex s).fmt = s.format := by
  refine ⟨?_, ?_, ?_⟩
  · intro h
    simp only [renderDisplay, EnumError.to_display_impl, h]
    cases hm : matchEval (e.variants.map (EnumVariant.to_display_match_arm lex)) v with
    | none => simp [List.mapM, List.mapM.loop, evalBodyArg, hm]
    | some r => simp [List.mapM, List.mapM.loop, evalBodyArg, hm]
  · intro h
    simp only [renderDisplay, EnumError.to_display_impl, h]
    cases hm : matchEval (e.variants.map (EnumVariant.to_display_match_arm lex)) v with
    | none => simp [List.mapM, List.mapM.loop, evalBodyArg, hm]
    | some r =>
      simp [List.mapM, List.mapM.loop, evalBodyArg, hm, instFormat, instFmtF,
        readName]
  · rcases s with ⟨si, sf, sg, sv⟩
    cases sv <;> rfl

/-- A concrete enum for C8, mirroring the crate's `enum_top_level_format`
test: `#[format = "an error occured: {}"] enum TestError { Foo(i8) }`. -/
def topLevelFormatEnum : EnumError :=
  ⟨"TestError", some "an error occured: {}", "", [.singleType "Foo" none none "i8"]⟩

/-- Witness for C8 applied at concrete inputs: the composition equation at
`topLevelFormatEnum`, the pass-through equation at `singleVariantEnum` (via
a distinct value), and the product-type equation at a concrete struct. -/
theorem c8_witness :
    (renderDisplay (topLevelFormatEnum.to_display_impl tokenLexOk) ⟨"Foo", ["10"]⟩ =
      (matchEval (topLevelFormatEnum.variants.map
          (EnumVariant.to_display_match_arm tokenLexOk)) ⟨"Foo", ["10"]⟩).bind
        (fun r => instFormat "an error occured: {}" [r] [])) ∧
    (renderDisplay (singleVariantEnum.to_display_impl tokenLexOk) ⟨"Wrapped", ["x"]⟩ =
      matchEval (singleVariantEnum.variants.map
        (EnumVariant.to_display_match_arm tokenLexOk)) ⟨"Wrapped", ["x"]⟩) ∧
    (StructError.toTokens tokenLexOk ⟨"NullError", "unexpected null pointer", "", .unit⟩).fmt =
      "unexpected null pointer" := by
  refine ⟨?_, ?_, ?_⟩
  · exact (c8_type_level_composition tokenLexOk topLevelFormatEnum ⟨"Foo", ["10"]⟩
      ⟨"NullError", "unexpected null pointer", "", .unit⟩ "an error occured: {}").1 rfl
  · exact (c8_type_level_composition tokenLexOk singleVariantEnum ⟨"Wrapped", ["x"]⟩
      ⟨"NullError", "unexpected null pointer", "", .unit⟩ "an error occured: {}").2.1 rfl
  · exact (c8_type_level_composition tokenLexOk singleVariantEnum ⟨"Wrapped", ["x"]⟩
      ⟨"NullError", "unexpected null pointer", "", .unit⟩ "an error occured: {}").2.2

/-! ## The crate's own test expectations, replayed against the model -/

/-- Source `tests::enum_top_level_format`: `TestError::Foo(10)` renders
`"an error occured: 10"` under the type-level format. -/
theorem replay_enum_top_level_format :
    renderDisplay (topLevelFormatEnum.to_display_impl tokenLexOk)
      ⟨"Foo", ["10"]⟩ = some "an error occured: 10" := rfl

/-- Source `tests::enum_struct`: named-field binding —
`#[format = "decoding error at {file} {offset}"] Decoding { file, offset }`
at `file = "foo.mp3"`, `offset = "10"` renders the substituted template. -/
theorem replay_enum_struct :
    renderDisplay
      (EnumError.to_display_impl tokenLexOk
        ⟨"TestError", none, "",
         [.anonymousStruct "Decoding" [(none, "file"), (none, "offset")]
            "decoding error at {file} {offset}"]⟩)
      ⟨"Decoding", ["foo.mp3", "10"]⟩ = some "decoding error at foo.mp3 10" := rfl

/-- Source `tests::enum_tuple`: positional binding —
`#[format = "lorem ipsum {arg_0} {arg_1}"] Foo(i8, u8)` at `(1, 2)`. -/
theorem replay_enum_tuple :
    renderDisplay
      (EnumError.to_display_impl tokenLexOk
        ⟨"TestError", none, "",
         [.tuple "Foo" "lorem ipsum {arg_0} {arg_1}" [none, none]]⟩)
      ⟨"Foo", ["1", "2"]⟩ = some "lorem ipsum 1 2" := rfl

/-- Source `tests::enum_unit`: `#[format = "unexpected null pointer"] NullError`. -/
theorem replay_enum_unit :
    renderDisplay
      (EnumError.to_display_impl tokenLexOk
        ⟨"TestError", none, "", [.unit "NullError" "unexpected null pointer"]⟩)
      ⟨"NullError", []⟩ = some "unexpected null pointer" := rfl
